import Mathlib

/-!
Shallow embedding of the backtest execution simulator
(src/inv_trader/backtest/execution.pyx, class BacktestExecClient),
together with proofs about the behaviour of its operations.

Prices are modelled as integers (a fixed-precision decimal scaled to an
integer number of minimal increments supports exactly the ordering and
addition the source uses).  Python dictionaries are modelled as
insertion-ordered association lists.  The injected clock is modelled by a
fixed value in the environment; the GUID factory is dropped because no
proved property mentions event ids.  Fallible operations (those guarded by
a Precondition in the source) return Except.
-/

namespace Backtest

/-- Timestamps. The simulator reads the day-of-month component (iterate's
day-rollover check) and compares whole timestamps (order expiry), so the
model keeps the calendar fields explicit.  The source compares day numbers
with the Python `is not` operator; for CPython ints in the interned range
0..256 (day numbers are 0..31) this coincides with inequality. -/
structure DateTime where
  year : Nat
  month : Nat
  day : Nat
  minuteOfDay : Nat
deriving DecidableEq

/-- Lexicographic order on timestamps, mirroring datetime comparison. -/
def DateTime.le (a b : DateTime) : Bool :=
  a.year < b.year ||
    (a.year = b.year &&
      (a.month < b.month ||
        (a.month = b.month &&
          (a.day < b.day ||
            (a.day = b.day && a.minuteOfDay ≤ b.minuteOfDay)))))

/-- Two timestamps fall on the same calendar day when year, month and day
all agree.  (The source's day_number field records only the day component.) -/
def DateTime.sameCalendarDay (a b : DateTime) : Bool :=
  a.year = b.year && a.month = b.month && a.day = b.day

def dtZero : DateTime := ⟨0, 0, 0, 0⟩

inductive OrderSide where
  | buy
  | sell
deriving DecidableEq

inductive OrderType where
  | market
  | limit
  | stop_market
  | stop_limit
  | mit
deriving DecidableEq

/-- The Order entity fields read by the execution simulator
(inv_trader/model/order; only the attributes the simulator touches). -/
structure Order where
  id : String
  symbol : String
  side : OrderSide
  type : OrderType
  quantity : Nat
  price : Int
  broker_id : String
  label : String
  time_in_force : String
  expire_time : Option DateTime
deriving DecidableEq

/-- Modelled from the spec: the Position entity (section 4.3; the file
inv_trader/model/position is not under src/).  A position carries a signed
net quantity updated by fills and is exited exactly when that quantity has
returned to zero. -/
structure Position where
  id : String
  net_quantity : Int
deriving DecidableEq

/-- Modelled from the spec: applying a fill event adds the signed quantity. -/
def Position.apply (p : Position) (side : OrderSide) (qty : Nat) : Position :=
  { p with net_quantity :=
      p.net_quantity + (match side with | .buy => (qty : Int) | .sell => -(qty : Int)) }

/-- Modelled from the spec: a position is exited iff its net quantity is zero. -/
def Position.is_exited (p : Position) : Bool :=
  p.net_quantity = 0

/-- The event taxonomy emitted to the event sink (inv_trader/model/events),
restricted to the payload fields this development reasons about.  GUID event
ids are omitted. -/
inductive Event where
  | orderSubmitted (symbol order_id : String) (ts : DateTime)
  | orderAccepted (symbol order_id : String) (ts : DateTime)
  | orderRejected (symbol order_id : String) (ts : DateTime) (reason : String)
  | orderWorking (symbol order_id broker_id label : String) (side : OrderSide)
      (ty : OrderType) (quantity : Nat) (price : Int) (time_in_force : String)
      (ts : DateTime) (expire_time : Option DateTime)
  | orderModified (symbol order_id broker_id : String) (new_price : Int) (ts : DateTime)
  | orderCancelled (symbol order_id : String) (ts : DateTime)
  | orderCancelReject (symbol order_id : String) (ts : DateTime)
      (reason_code reason_text : String)
  | orderExpired (symbol order_id : String) (expired_time : DateTime)
  | orderFilled (symbol order_id execution_id execution_ticket : String)
      (side : OrderSide) (quantity : Nat) (fill_price : Int) (ts : DateTime)
  | accountEvent (cash_balance cash_start_day cash_activity_day : Int)
deriving DecidableEq

def Event.isAccountEvent : Event → Bool
  | .accountEvent _ _ _ => true
  | _ => false

def Event.isFilledFor (oid : String) : Event → Bool
  | .orderFilled _ i _ _ _ _ _ _ => i = oid
  | _ => false

def Event.isExpiredFor (oid : String) : Event → Bool
  | .orderExpired _ i _ => i = oid
  | _ => false

/-- A bid or ask OHLC bar, one row of the prepared minute data
(the source stores each bar as the four-element array
[open, high, low, close] of Price). -/
structure Bar where
  open_price : Int
  high_price : Int
  low_price : Int
  close_price : Int
deriving DecidableEq

/-- Association lists standing in for Python dictionaries (insertion
ordered; update keeps the key's position, fresh keys append). -/
def alLookup {α : Type} (l : List (String × α)) (k : String) : Option α :=
  match l with
  | [] => none
  | (k', v) :: rest => if k' = k then some v else alLookup rest k

def alInsert {α : Type} (l : List (String × α)) (k : String) (v : α) :
    List (String × α) :=
  match l with
  | [] => [(k, v)]
  | (k', v') :: rest =>
    if k' = k then (k, v) :: rest else (k', v') :: alInsert rest k v

def alErase {α : Type} (l : List (String × α)) (k : String) : List (String × α) :=
  l.eraseP (fun p => decide (p.1 = k))

/-- The read-only collaborators of BacktestExecClient: the prepared
per-symbol bar arrays (indexed by iteration), the slippage index computed at
construction, and the injected test clock's current time. -/
structure Env where
  bars_bid : String → Nat → Bar
  bars_ask : String → Nat → Bar
  slippage : String → Int
  now : DateTime

/-- The mutable fields of BacktestExecClient (together with the cash
balance of the account singleton that iterate reads). -/
structure ExecState where
  iteration : Nat
  day_number : Nat
  account_cash_balance : Int
  account_cash_start_day : Int
  account_cash_activity_day : Int
  working_orders : List (String × Order)
  positions_count : List (String × Nat)
  positions : List (String × Position)
  completed_positions : List (String × Position)
deriving DecidableEq

def _get_highest_bid (env : Env) (st : ExecState) (symbol : String) : Int :=
  (env.bars_bid symbol st.iteration).high_price

def _get_lowest_bid (env : Env) (st : ExecState) (symbol : String) : Int :=
  (env.bars_bid symbol st.iteration).low_price

def _get_closing_bid (env : Env) (st : ExecState) (symbol : String) : Int :=
  (env.bars_bid symbol st.iteration).close_price

def _get_highest_ask (env : Env) (st : ExecState) (symbol : String) : Int :=
  (env.bars_ask symbol st.iteration).high_price

def _get_lowest_ask (env : Env) (st : ExecState) (symbol : String) : Int :=
  (env.bars_ask symbol st.iteration).low_price

def _get_closing_ask (env : Env) (st : ExecState) (symbol : String) : Int :=
  (env.bars_ask symbol st.iteration).close_price

/-! ### set_initial_iteration

The loop of set_initial_iteration (execution.pyx lines 147-156) walks a wall
clock from data_minute_index[0] in increments of time_step, bumping
next_index and iteration on every match with the index, until the wall clock
reaches to_time.  Timestamps here are integers (minutes); datetime plus
timedelta arithmetic is affine.  The loop is given explicit fuel so that
both its normal results and its failure to terminate are expressible; a
lookup past the end of the index list is the IndexError the source would
raise there. -/

inductive SiiResult where
  | done : Int → Nat → Nat → SiiResult
  | indexError : SiiResult
deriving DecidableEq

/-- One Python while-iteration per unit of fuel: while current < to_time,
test data_minute_index[next_index] == current (advancing next_index and
iteration on a match) and step current by time_step.  none means the fuel
ran out with the loop still running. -/
def siiFuel (idx : List Int) (to_time time_step : Int) :
    Nat → Int → Nat → Nat → Option SiiResult
  | 0, current, next_index, iter =>
    if current < to_time then none else some (.done current next_index iter)
  | fuel + 1, current, next_index, iter =>
    if current < to_time then
      match idx[next_index]? with
      | none => some .indexError
      | some v =>
        if v = current then
          siiFuel idx to_time time_step fuel (current + time_step) (next_index + 1) (iter + 1)
        else
          siiFuel idx to_time time_step fuel (current + time_step) next_index iter
    else some (.done current next_index iter)

/-- set_initial_iteration: start the wall clock at data_minute_index[0]
(raising on an empty index, as the subscript in the source would) and run
the loop; the done result carries the final wall clock (to which the
injected clock is then set), the final next_index, and the final iteration
counter started from iter0. -/
def set_initial_iteration (idx : List Int) (to_time time_step : Int)
    (iter0 : Nat) (fuel : Nat) : Option SiiResult :=
  match idx with
  | [] => some .indexError
  | x0 :: _ => siiFuel idx to_time time_step fuel x0 0 iter0

/-! ### Event emitting helpers and the fill path -/

/-- collateral_inquiry builds an AccountEvent snapshot from the account and
the client's daily cash fields and emits it. -/
def collateral_inquiry (st : ExecState) : Event :=
  Event.accountEvent st.account_cash_balance st.account_cash_start_day
    st.account_cash_activity_day

def _reject_order (env : Env) (order : Order) (reason : String) : Event :=
  Event.orderRejected order.symbol order.id env.now reason

def _reject_modify_order (env : Env) (order : Order) (reason : String) : Event :=
  Event.orderCancelReject order.symbol order.id env.now "INVALID PRICE" reason

/-- OrderExpired is built from the order's own expire_time field (execution.pyx
line 480), not from the current clock time.  The source only calls this
when expire_time is non-None; getD supplies a dummy for the total function. -/
def _expire_order (order : Order) : Event :=
  Event.orderExpired order.symbol order.id (order.expire_time.getD dtZero)

/-- The position bookkeeping of _adjust_positions (execution.pyx lines
512-530): ensure a positions_count entry, lazily create a position named
symbol->count, apply the fill, and move exited positions to
completed_positions.  Returns the new (positions_count, positions,
completed_positions) triple. -/
def adjust_positions_maps (st : ExecState) (order : Order) :
    List (String × Nat) × List (String × Position) × List (String × Position) :=
  let counts :=
    match alLookup st.positions_count order.symbol with
    | none => alInsert st.positions_count order.symbol 0
    | some _ => st.positions_count
  let cp :=
    match alLookup st.positions order.symbol with
    | none =>
      let n := (alLookup counts order.symbol).getD 0 + 1
      (alInsert counts order.symbol n,
       alInsert st.positions order.symbol ⟨order.symbol ++ "-" ++ toString n, 0⟩)
    | some _ => (counts, st.positions)
  match alLookup cp.2 order.symbol with
  | none => (cp.1, cp.2, st.completed_positions)
  | some pos =>
    let pos2 := Position.apply pos order.side order.quantity
    if Position.is_exited pos2 then
      (cp.1, alErase cp.2 order.symbol,
       alInsert st.completed_positions pos2.id pos2)
    else
      (cp.1, alInsert cp.2 order.symbol pos2, st.completed_positions)

/-- _adjust_positions (execution.pyx lines 506-545).  After the map updates
the source constructs the AccountEvent named initial_starting from the
account and daily cash fields, but the method ends without ever passing it
to the event sink, so no event is emitted here. -/
def _adjust_positions (st : ExecState) (order : Order) : ExecState :=
  let maps := adjust_positions_maps st order
  let _initial_starting : Event :=
    Event.accountEvent st.account_cash_balance st.account_cash_start_day
      st.account_cash_activity_day
  { st with positions_count := maps.1, positions := maps.2.1,
            completed_positions := maps.2.2 }

/-- _fill_order (execution.pyx lines 487-504): emit OrderFilled with the
synthetic execution id E+orderId and ticket ET+orderId, then adjust the
positions (which, per _adjust_positions, emits nothing further). -/
def _fill_order (env : Env) (st : ExecState) (order : Order) (fill_price : Int) :
    ExecState × List Event :=
  (_adjust_positions st order,
   [Event.orderFilled order.symbol order.id ("E" ++ order.id) ("ET" ++ order.id)
      order.side order.quantity fill_price env.now])

/-! ### The working-order scan of iterate -/

/-- The type guard of the scan branches as the source actually evaluates.
The guard is written `order.type is OrderType.STOP_MARKET or
OrderType.STOP_LIMIT or OrderType.MIT` (execution.pyx lines 177 and 189), so
its second and third operands are the bare enum members, not comparisons.
Modelled from the spec: the OrderType enum values (module
inv_trader.enums.order_type, not under src/) make those members truthy
(section 9, open question 1); indeed any assignment of distinct integers to
the members leaves at most one of STOP_LIMIT and MIT zero, so the
disjunction holds for every order type. -/
def scan_type_guard (ty : OrderType) : Bool :=
  decide (ty = OrderType.stop_market) || true || true

/-- The fill decision of the scan for one order: the price at which the
order fills on the current bar, if it does (execution.pyx lines 175-198).
BUY orders test the bar's highest ask, SELL orders its lowest bid; the
slippage of the symbol is applied against the order side.  Because
scan_type_guard is always true, the LIMIT branches are unreachable. -/
def fill_check (env : Env) (st : ExecState) (order : Order) : Option Int :=
  if order.side = OrderSide.buy then
    let highest_ask := _get_highest_ask env st order.symbol
    if scan_type_guard order.type then
      if highest_ask ≥ order.price then
        some (order.price + env.slippage order.symbol)
      else none
    else if order.type = OrderType.limit then
      if highest_ask < order.price then
        some (order.price + env.slippage order.symbol)
      else none
    else none
  else
    let lowest_bid := _get_lowest_bid env st order.symbol
    if scan_type_guard order.type then
      if lowest_bid ≤ order.price then
        some (order.price - env.slippage order.symbol)
      else none
    else if order.type = OrderType.limit then
      if lowest_bid > order.price then
        some (order.price - env.slippage order.symbol)
      else none
    else none

def delWorking (st : ExecState) (oid : String) : ExecState :=
  { st with working_orders := alErase st.working_orders oid }

/-- The body of the scan loop for one order: on a fill, delete the order
from the live working map, fill it and continue (skipping the expiry
check); otherwise, if the order has an expire_time not after the iterate
timestamp, delete it and emit OrderExpired. -/
def processOrder (env : Env) (t : DateTime) (st : ExecState) (order : Order) :
    ExecState × List Event :=
  match fill_check env st order with
  | some fp => _fill_order env (delWorking st order.id) order fp
  | none =>
    match order.expire_time with
    | some et =>
      if DateTime.le et t then (delWorking st order.id, [_expire_order order])
      else (st, [])
    | none => (st, [])

/-- The scan over a snapshot of the working-order map (the source copies
the dict before the loop); deletions during the scan act on the live map
threaded through the state. -/
def scanOrders (env : Env) (t : DateTime) :
    List (String × Order) → ExecState → ExecState × List Event
  | [], st => (st, [])
  | p :: rest, st =>
    let r := processOrder env t st p.2
    let r2 := scanOrders env t rest r.1
    (r2.1, r.2 ++ r2.2)

/-- iterate (execution.pyx lines 158-205): on a change of the day-of-month
record it, capture cash_start_day from the account balance, reset the daily
activity and emit an AccountEvent via collateral_inquiry; then scan a
snapshot of the working orders for fills and expiries; finally increment
the iteration counter. -/
def iterate (env : Env) (time : DateTime) (st : ExecState) :
    ExecState × List Event :=
  let r1 :
      ExecState × List Event :=
    if st.day_number ≠ time.day then
      let stA := { st with day_number := time.day,
                           account_cash_start_day := st.account_cash_balance,
                           account_cash_activity_day := 0 }
      (stA, [collateral_inquiry stA])
    else (st, [])
  let r2 := scanOrders env time r1.1.working_orders r1.1
  ({ r2.1 with iteration := r2.1.iteration + 1 }, r1.2 ++ r2.2)

/-! ### Command handlers -/

def order_working_event (env : Env) (order : Order) : Event :=
  Event.orderWorking order.symbol order.id ("B" ++ order.id) order.label
    order.side order.type order.quantity order.price order.time_in_force
    env.now order.expire_time

def order_modified_event (env : Env) (order : Order) (new_price : Int) : Event :=
  Event.orderModified order.symbol order.id order.broker_id new_price env.now

/-- submit_order (execution.pyx lines 227-303).  Precondition: the order id
is not already working.  Emits OrderSubmitted then OrderAccepted, fills
MARKET orders at the closing quote plus slippage, applies the admission
price checks against the closing quote of the current bar (note that here,
unlike in the scan of iterate, every operand of the type disjunction is a
comparison), and otherwise stores the order and emits OrderWorking with the
dummy broker id B+orderId. -/
def submit_order (env : Env) (st : ExecState) (order : Order) :
    Except String (ExecState × List Event) :=
  if (alLookup st.working_orders order.id).isSome then
    Except.error "order.id already contained in working_orders"
  else
    let submitted := Event.orderSubmitted order.symbol order.id env.now
    let accepted := Event.orderAccepted order.symbol order.id env.now
    if order.side = OrderSide.buy then
      let closing_ask := _get_closing_ask env st order.symbol
      if order.type = OrderType.market then
        let fr := _fill_order env st order (closing_ask + env.slippage order.symbol)
        Except.ok (fr.1, submitted :: accepted :: fr.2)
      else if order.type = OrderType.stop_market ∨ order.type = OrderType.stop_limit
          ∨ order.type = OrderType.mit then
        if order.price < closing_ask then
          Except.ok (st, [submitted, accepted,
            _reject_order env order ("Buy stop order price of " ++ toString order.price
              ++ " is below the ask " ++ toString closing_ask)])
        else
          Except.ok ({ st with working_orders := alInsert st.working_orders order.id order },
            [submitted, accepted, order_working_event env order])
      else if order.type = OrderType.limit then
        if order.price > closing_ask then
          Except.ok (st, [submitted, accepted,
            _reject_order env order ("Buy limit order price of " ++ toString order.price
              ++ " is above the ask " ++ toString closing_ask)])
        else
          Except.ok ({ st with working_orders := alInsert st.working_orders order.id order },
            [submitted, accepted, order_working_event env order])
      else
        Except.ok ({ st with working_orders := alInsert st.working_orders order.id order },
          [submitted, accepted, order_working_event env order])
    else
      let closing_bid := _get_closing_bid env st order.symbol
      if order.type = OrderType.market then
        let fr := _fill_order env st order (closing_bid - env.slippage order.symbol)
        Except.ok (fr.1, submitted :: accepted :: fr.2)
      else if order.type = OrderType.stop_market ∨ order.type = OrderType.stop_limit
          ∨ order.type = OrderType.mit then
        if order.price > closing_bid then
          Except.ok (st, [submitted, accepted,
            _reject_order env order ("Sell stop order price of " ++ toString order.price
              ++ " is above the bid " ++ toString closing_bid)])
        else
          Except.ok ({ st with working_orders := alInsert st.working_orders order.id order },
            [submitted, accepted, order_working_event env order])
      else if order.type = OrderType.limit then
        if order.price < closing_bid then
          Except.ok (st, [submitted, accepted,
            _reject_order env order ("Sell limit order price of " ++ toString order.price
              ++ " is below the bid " ++ toString closing_bid)])
        else
          Except.ok ({ st with working_orders := alInsert st.working_orders order.id order },
            [submitted, accepted, order_working_event env order])
      else
        Except.ok ({ st with working_orders := alInsert st.working_orders order.id order },
          [submitted, accepted, order_working_event env order])

/-- cancel_order (execution.pyx lines 305-319).  Precondition: the order is
working.  Removes it and emits OrderCancelled. -/
def cancel_order (env : Env) (st : ExecState) (order : Order) :
    Except String (ExecState × List Event) :=
  if (alLookup st.working_orders order.id).isSome = false then
    Except.error "order.id not contained in working_orders"
  else
    Except.ok (delWorking st order.id,
      [Event.orderCancelled order.symbol order.id env.now])

/-- modify_order (execution.pyx lines 321-361).  Precondition: the order is
working.  Validates the order's CURRENT price (the new_price parameter is
only printed and then carried in the OrderModified event) against the
closing quote of the current bar with the same predicates as submit_order,
emitting OrderCancelReject with reason code INVALID PRICE on failure and
OrderModified carrying new_price otherwise.  No state is touched. -/
def modify_order (env : Env) (st : ExecState) (order : Order) (new_price : Int) :
    Except String (ExecState × List Event) :=
  if (alLookup st.working_orders order.id).isSome = false then
    Except.error "order.id not contained in working_orders"
  else
    if order.side = OrderSide.buy then
      let current_ask := _get_closing_ask env st order.symbol
      if order.type = OrderType.stop_market ∨ order.type = OrderType.stop_limit
          ∨ order.type = OrderType.mit then
        if order.price < current_ask then
          Except.ok (st, [_reject_modify_order env order
            ("Buy stop order price of " ++ toString order.price
              ++ " is below the ask " ++ toString current_ask)])
        else Except.ok (st, [order_modified_event env order new_price])
      else if order.type = OrderType.limit then
        if order.price > current_ask then
          Except.ok (st, [_reject_modify_order env order
            ("Buy limit order price of " ++ toString order.price
              ++ " is above the ask " ++ toString current_ask)])
        else Except.ok (st, [order_modified_event env order new_price])
      else Except.ok (st, [order_modified_event env order new_price])
    else
      let current_bid := _get_closing_bid env st order.symbol
      if order.type = OrderType.stop_market ∨ order.type = OrderType.stop_limit
          ∨ order.type = OrderType.mit then
        if order.price > current_bid then
          Except.ok (st, [_reject_modify_order env order
            ("Sell stop order price of " ++ toString order.price
              ++ " is above the bid " ++ toString current_bid)])
        else Except.ok (st, [order_modified_event env order new_price])
      else if order.type = OrderType.limit then
        if order.price < current_bid then
          Except.ok (st, [_reject_modify_order env order
            ("Sell limit order price of " ++ toString order.price
              ++ " is below the bid " ++ toString current_bid)])
        else Except.ok (st, [order_modified_event env order new_price])
      else Except.ok (st, [order_modified_event env order new_price])

/-- The section 4.5.3 admission predicate, written from the specification's
own wording for comparison with the source functions: the price p is
rejected for a BUY stop/stop-limit/MIT below the closing ask, a BUY limit
above the closing ask, a SELL stop/stop-limit/MIT above the closing bid, and
a SELL limit below the closing bid. -/
def spec_admission_reject (side : OrderSide) (ty : OrderType)
    (p ca cb : Int) : Bool :=
  match side with
  | .buy =>
    if ty = OrderType.stop_market ∨ ty = OrderType.stop_limit ∨ ty = OrderType.mit then
      decide (p < ca)
    else if ty = OrderType.limit then decide (p > ca)
    else false
  | .sell =>
    if ty = OrderType.stop_market ∨ ty = OrderType.stop_limit ∨ ty = OrderType.mit then
      decide (p > cb)
    else if ty = OrderType.limit then decide (p < cb)
    else false

/-! ### Concrete fixtures

Prices are written in tenths of a pip so that EURUSD 1.1000 is 110000 and a
one-tick slippage is 10. -/

def envC1 : Env :=
  { bars_bid := fun _ _ => ⟨109000, 110060, 108000, 110000⟩,
    bars_ask := fun _ _ => ⟨109010, 110050, 108010, 110010⟩,
    slippage := fun _ => 10,
    now := ⟨2020, 1, 5, 600⟩ }

/-- The same market but with the ask bar's high strictly below the limit
price of ordC1. -/
def envC1b : Env :=
  { envC1 with bars_ask := fun _ _ => ⟨109010, 109900, 108010, 109500⟩ }

/-- A working BUY LIMIT order at 1.1000. -/
def ordC1 : Order :=
  { id := "O1", symbol := "EURUSD", side := .buy, type := .limit,
    quantity := 100000, price := 110000, broker_id := "BO1", label := "L",
    time_in_force := "GTC", expire_time := none }

def stC1 : ExecState :=
  { iteration := 0, day_number := 5, account_cash_balance := 1000000,
    account_cash_start_day := 1000000, account_cash_activity_day := 0,
    working_orders := [("O1", ordC1)], positions_count := [], positions := [],
    completed_positions := [] }

def envC2 : Env :=
  { bars_bid := fun _ _ => ⟨109000, 110060, 108000, 110000⟩,
    bars_ask := fun _ _ => ⟨109010, 110050, 108010, 110010⟩,
    slippage := fun _ => 10,
    now := ⟨2020, 1, 5, 600⟩ }

/-- A MARKET BUY order. -/
def ordC2 : Order :=
  { id := "O2", symbol := "EURUSD", side := .buy, type := .market,
    quantity := 100000, price := 0, broker_id := "BO2", label := "L",
    time_in_force := "DAY", expire_time := none }

def stC2 : ExecState :=
  { iteration := 0, day_number := 5, account_cash_balance := 1000000,
    account_cash_start_day := 1000000, account_cash_activity_day := 0,
    working_orders := [], positions_count := [], positions := [],
    completed_positions := [] }

def envC5 : Env :=
  { bars_bid := fun _ _ => ⟨109000, 110060, 108000, 110000⟩,
    bars_ask := fun _ _ => ⟨109010, 110050, 108010, 110010⟩,
    slippage := fun _ => 10,
    now := ⟨2020, 1, 5, 0⟩ }

/-- A fresh client state (day_number starts at 0, as in the constructor). -/
def stC5 : ExecState :=
  { iteration := 0, day_number := 0, account_cash_balance := 1000000,
    account_cash_start_day := 1000000, account_cash_activity_day := 0,
    working_orders := [], positions_count := [], positions := [],
    completed_positions := [] }

def d5a : DateTime := ⟨2020, 1, 5, 0⟩

def d5b : DateTime := ⟨2020, 2, 5, 0⟩

def envC3 : Env :=
  { bars_bid := fun _ _ => ⟨109000, 110060, 108000, 110000⟩,
    bars_ask := fun _ _ => ⟨109010, 110050, 108010, 110010⟩,
    slippage := fun _ => 10,
    now := ⟨2020, 1, 5, 600⟩ }

/-- A working BUY STOP_MARKET whose price 1.0900 is below the closing ask
1.1001, so a modify call is rejected. -/
def ordC3 : Order :=
  { id := "O3", symbol := "EURUSD", side := .buy, type := .stop_market,
    quantity := 100000, price := 109000, broker_id := "BO3", label := "L",
    time_in_force := "GTC", expire_time := none }

def stC3 : ExecState :=
  { iteration := 0, day_number := 5, account_cash_balance := 1000000,
    account_cash_start_day := 1000000, account_cash_activity_day := 0,
    working_orders := [("O3", ordC3)], positions_count := [], positions := [],
    completed_positions := [] }

def envC4 : Env :=
  { bars_bid := fun _ _ => ⟨109000, 110060, 108000, 110000⟩,
    bars_ask := fun _ _ => ⟨109010, 110050, 108010, 110010⟩,
    slippage := fun _ => 10,
    now := ⟨2020, 1, 5, 600⟩ }

/-- A BUY STOP_MARKET at 1.1100, above the closing ask 1.1001, so submission
makes it working. -/
def ordC4 : Order :=
  { id := "O4", symbol := "EURUSD", side := .buy, type := .stop_market,
    quantity := 100000, price := 111000, broker_id := "BO4", label := "L",
    time_in_force := "GTC", expire_time := none }

def stC4 : ExecState :=
  { iteration := 0, day_number := 5, account_cash_balance := 1000000,
    account_cash_start_day := 1000000, account_cash_activity_day := 0,
    working_orders := [], positions_count := [], positions := [],
    completed_positions := [] }

def envC6 : Env :=
  { bars_bid := fun _ _ => ⟨109000, 110060, 108000, 110000⟩,
    bars_ask := fun _ _ => ⟨109010, 110050, 108010, 110010⟩,
    slippage := fun _ => 10,
    now := ⟨2020, 1, 5, 600⟩ }

/-- A working BUY STOP_MARKET far above the market (highest ask 1.1005 stays
below the stop 1.2000) with an expire_time already reached. -/
def ordC6 : Order :=
  { id := "O6", symbol := "EURUSD", side := .buy, type := .stop_market,
    quantity := 100000, price := 120000, broker_id := "BO6", label := "L",
    time_in_force := "GTD", expire_time := some ⟨2020, 1, 5, 500⟩ }

def stC6 : ExecState :=
  { iteration := 0, day_number := 5, account_cash_balance := 1000000,
    account_cash_start_day := 1000000, account_cash_activity_day := 0,
    working_orders := [("O6", ordC6)], positions_count := [], positions := [],
    completed_positions := [] }

def tC6 : DateTime := ⟨2020, 1, 5, 601⟩

def envC9 : Env :=
  { bars_bid := fun _ _ => ⟨109000, 110060, 108000, 110000⟩,
    bars_ask := fun _ _ => ⟨109010, 110050, 108010, 110010⟩,
    slippage := fun _ => 10,
    now := ⟨2020, 1, 5, 600⟩ }

/-- A working SELL LIMIT at 1.1100, above the closing bid 1.1000, so a
modify call passes the admission check. -/
def ordC9 : Order :=
  { id := "O9", symbol := "EURUSD", side := .sell, type := .limit,
    quantity := 100000, price := 111000, broker_id := "BO9", label := "L",
    time_in_force := "GTC", expire_time := none }

def stC9 : ExecState :=
  { iteration := 0, day_number := 5, account_cash_balance := 1000000,
    account_cash_start_day := 1000000, account_cash_activity_day := 0,
    working_orders := [("O9", ordC9)], positions_count := [], positions := [],
    completed_positions := [] }

def envC10 : Env :=
  { bars_bid := fun _ _ => ⟨109000, 110060, 108000, 110000⟩,
    bars_ask := fun _ _ => ⟨109010, 110050, 108010, 110010⟩,
    slippage := fun _ => 10,
    now := ⟨2020, 1, 5, 600⟩ }

def etC10 : DateTime := ⟨2020, 1, 5, 500⟩

/-- A working SELL STOP_MARKET far below the market (lowest bid 1.0800 stays
above the stop 1.0000) with an expire_time already reached. -/
def ordC10 : Order :=
  { id := "O10", symbol := "EURUSD", side := .sell, type := .stop_market,
    quantity := 100000, price := 100000, broker_id := "BO10", label := "L",
    time_in_force := "GTD", expire_time := some etC10 }

def stC10 : ExecState :=
  { iteration := 0, day_number := 5, account_cash_balance := 1000000,
    account_cash_start_day := 1000000, account_cash_activity_day := 0,
    working_orders := [("O10", ordC10)], positions_count := [], positions := [],
    completed_positions := [] }

def tC10 : DateTime := ⟨2020, 1, 5, 601⟩

/-! ### Helper lemmas -/

theorem alInsert_of_lookup_none {α : Type} (l : List (String × α)) (k : String)
    (v : α) (h : alLookup l k = none) : alInsert l k v = l ++ [(k, v)] := by
  induction l with
  | nil => rfl
  | cons p rest ih =>
    obtain ⟨k', v'⟩ := p
    by_cases hk : k' = k
    · simp [alLookup, hk] at h
    · simp only [alLookup, if_neg hk] at h
      simp [alInsert, hk, ih h]

/-- In a list with duplicate-free keys, two entries with the same key are
the same entry. -/
theorem keyed_entry_unique {α : Type} (l : List (String × α))
    (h : (l.map Prod.fst).Nodup) (p q : String × α)
    (hp : p ∈ l) (hq : q ∈ l) (hk : p.1 = q.1) : p = q := by
  induction l with
  | nil => cases hp
  | cons x rest ih =>
    rw [List.map_cons, List.nodup_cons] at h
    obtain ⟨hx, hrest⟩ := h
    cases hp with
    | head =>
      cases hq with
      | head => rfl
      | tail _ hq' =>
        exact absurd (hk ▸ List.mem_map_of_mem Prod.fst hq') hx
    | tail _ hp' =>
      cases hq with
      | head =>
        exact absurd (hk ▸ List.mem_map_of_mem Prod.fst hp') hx
      | tail _ hq' => exact ih hrest hp' hq'

/-- processOrder never touches the iteration counter, the day number or any
of the cash fields. -/
theorem processOrder_frame (env : Env) (t : DateTime) (st : ExecState) (o : Order) :
    (processOrder env t st o).1.iteration = st.iteration ∧
    (processOrder env t st o).1.day_number = st.day_number ∧
    (processOrder env t st o).1.account_cash_balance = st.account_cash_balance ∧
    (processOrder env t st o).1.account_cash_start_day = st.account_cash_start_day ∧
    (processOrder env t st o).1.account_cash_activity_day =
      st.account_cash_activity_day := by
  unfold processOrder
  cases fill_check env st o with
  | some fp => exact ⟨rfl, rfl, rfl, rfl, rfl⟩
  | none =>
    cases o.expire_time with
    | none => exact ⟨rfl, rfl, rfl, rfl, rfl⟩
    | some et =>
      by_cases hle : DateTime.le et t = true
      · simp [hle, delWorking]
      · simp [hle]

/-- The events of processOrder: none, a single OrderFilled produced exactly
when fill_check fires (at the price it returns), or a single OrderExpired
produced exactly when fill_check does not fire and the order's expire_time
has been reached. -/
theorem processOrder_events_cases (env : Env) (t : DateTime) (st : ExecState)
    (o : Order) :
    (processOrder env t st o).2 = [] ∨
    (∃ fp, fill_check env st o = some fp ∧
      (processOrder env t st o).2 =
        [Event.orderFilled o.symbol o.id ("E" ++ o.id) ("ET" ++ o.id) o.side
          o.quantity fp env.now]) ∨
    (∃ et, fill_check env st o = none ∧ o.expire_time = some et ∧
      DateTime.le et t = true ∧
      (processOrder env t st o).2 = [Event.orderExpired o.symbol o.id et]) := by
  unfold processOrder
  cases hfc : fill_check env st o with
  | some fp => exact Or.inr (Or.inl ⟨fp, rfl, rfl⟩)
  | none =>
    cases hexp : o.expire_time with
    | none => exact Or.inl rfl
    | some et =>
      by_cases hle : DateTime.le et t = true
      · refine Or.inr (Or.inr ⟨et, rfl, rfl, hle, ?_⟩)
        simp [hle, _expire_order, hexp]
      · simp [hle]

/-- fill_check reads the state only through the iteration counter. -/
theorem fill_check_iter_congr (env : Env) (st st' : ExecState)
    (h : st.iteration = st'.iteration) (o : Order) :
    fill_check env st o = fill_check env st' o := by
  unfold fill_check _get_highest_ask _get_lowest_bid
  rw [h]

/-- The events of processOrder depend on the state only through the
iteration counter. -/
theorem processOrder_events_congr (env : Env) (t : DateTime) (st st' : ExecState)
    (h : st.iteration = st'.iteration) (o : Order) :
    (processOrder env t st o).2 = (processOrder env t st' o).2 := by
  unfold processOrder
  rw [fill_check_iter_congr env st st' h o]
  cases fill_check env st' o with
  | some fp => rfl
  | none =>
    cases o.expire_time with
    | none => rfl
    | some et =>
      by_cases hle : DateTime.le et t = true
      · simp [hle]
      · simp [hle]

/-- The scan preserves the iteration counter, the day number and the cash
fields. -/
theorem scanOrders_frame (env : Env) (t : DateTime)
    (os : List (String × Order)) (st : ExecState) :
    (scanOrders env t os st).1.iteration = st.iteration ∧
    (scanOrders env t os st).1.day_number = st.day_number ∧
    (scanOrders env t os st).1.account_cash_balance = st.account_cash_balance ∧
    (scanOrders env t os st).1.account_cash_start_day =
      st.account_cash_start_day ∧
    (scanOrders env t os st).1.account_cash_activity_day =
      st.account_cash_activity_day := by
  induction os generalizing st with
  | nil => exact ⟨rfl, rfl, rfl, rfl, rfl⟩
  | cons p rest ih =>
    obtain ⟨a1, a2, a3, a4, a5⟩ := processOrder_frame env t st p.2
    obtain ⟨b1, b2, b3, b4, b5⟩ := ih (processOrder env t st p.2).1
    refine ⟨?_, ?_, ?_, ?_, ?_⟩ <;> simp only [scanOrders]
    · exact b1.trans a1
    · exact b2.trans a2
    · exact b3.trans a3
    · exact b4.trans a4
    · exact b5.trans a5

/-- Every event of the scan comes from processing one of the scanned
orders, and its shape can be read off against the state the scan started
in (the scan can only change fields processOrder's events do not read). -/
theorem scanOrders_events_mem (env : Env) (t : DateTime)
    (os : List (String × Order)) (st : ExecState) (e : Event)
    (he : e ∈ (scanOrders env t os st).2) :
    ∃ p ∈ os, e ∈ (processOrder env t st p.2).2 := by
  induction os generalizing st with
  | nil => simp [scanOrders] at he
  | cons p rest ih =>
    simp only [scanOrders] at he
    rw [List.mem_append] at he
    cases he with
    | inl h => exact ⟨p, List.mem_cons_self p rest, h⟩
    | inr h =>
      obtain ⟨q, hq, hqe⟩ := ih (processOrder env t st p.2).1 h
      rw [processOrder_events_congr env t (processOrder env t st p.2).1 st
        (processOrder_frame env t st p.2).1 q.2] at hqe
      exact ⟨q, List.mem_cons_of_mem p hq, hqe⟩

/-- processOrder emits no AccountEvent. -/
theorem processOrder_events_not_account (env : Env) (t : DateTime)
    (st : ExecState) (o : Order) :
    ∀ e ∈ (processOrder env t st o).2, e.isAccountEvent = false := by
  intro e he
  rcases processOrder_events_cases env t st o with h | ⟨fp, _, h⟩ | ⟨et, _, _, _, h⟩
  · rw [h] at he; cases he
  · rw [h] at he; simp at he; subst he; rfl
  · rw [h] at he; simp at he; subst he; rfl

/-- The working-order scan of iterate emits no AccountEvent. -/
theorem scanOrders_events_not_account (env : Env) (t : DateTime)
    (os : List (String × Order)) (st : ExecState) :
    ∀ e ∈ (scanOrders env t os st).2, e.isAccountEvent = false := by
  intro e he
  obtain ⟨p, _, hp⟩ := scanOrders_events_mem env t os st e he
  exact processOrder_events_not_account env t st p.2 e hp

/-- Every non-account event of iterate comes from processing one of the
working orders of the starting state (the day rollover contributes only an
AccountEvent, and the rollover state differs from the starting state in
neither its working orders nor its iteration counter). -/
theorem iterate_events_mem (env : Env) (t : DateTime) (st : ExecState)
    (e : Event) (he : e ∈ (iterate env t st).2)
    (hacct : e.isAccountEvent = false) :
    ∃ p ∈ st.working_orders, e ∈ (processOrder env t st p.2).2 := by
  by_cases hday : st.day_number ≠ t.day
  · simp only [iterate, if_pos hday] at he
    rw [List.mem_append] at he
    cases he with
    | inl h =>
      simp only [List.mem_singleton] at h
      subst h
      simp [collateral_inquiry, Event.isAccountEvent] at hacct
    | inr h =>
      obtain ⟨p, hp, hpe⟩ := scanOrders_events_mem env t _ _ e h
      rw [processOrder_events_congr env t
        { st with day_number := t.day,
                  account_cash_start_day := st.account_cash_balance,
                  account_cash_activity_day := 0 } st rfl p.2] at hpe
      exact ⟨p, hp, hpe⟩
  · simp only [iterate, if_neg hday] at he
    rw [List.nil_append] at he
    exact scanOrders_events_mem env t _ _ e he

/-- A fill event for order id oid can only come from processing the order
with that id, and only with fill_check firing. -/
theorem processOrder_filled_id (env : Env) (t : DateTime) (st : ExecState)
    (o : Order) (oid : String) (e : Event)
    (he : e ∈ (processOrder env t st o).2) (hf : e.isFilledFor oid = true) :
    o.id = oid ∧ (fill_check env st o).isSome = true := by
  rcases processOrder_events_cases env t st o with h | ⟨fp, hfc, h⟩ | ⟨et, hfc, _, _, h⟩
  · rw [h] at he; cases he
  · rw [h] at he
    simp only [List.mem_singleton] at he
    subst he
    simp only [Event.isFilledFor, decide_eq_true_eq] at hf
    exact ⟨hf, by rw [hfc]; rfl⟩
  · rw [h] at he
    simp only [List.mem_singleton] at he
    subst he
    simp [Event.isFilledFor] at hf
/-- An expiry event for order id oid can only come from processing the
order with that id, with fill_check not firing. -/
theorem processOrder_expired_id (env : Env) (t : DateTime) (st : ExecState)
    (o : Order) (oid : String) (e : Event)
    (he : e ∈ (processOrder env t st o).2) (hx : e.isExpiredFor oid = true) :
    o.id = oid ∧ fill_check env st o = none := by
  rcases processOrder_events_cases env t st o with h | ⟨fp, hfc, h⟩ | ⟨et, hfc, _, _, h⟩
  · rw [h] at he; cases he
  · rw [h] at he
    simp only [List.mem_singleton] at he
    subst he
    simp [Event.isExpiredFor] at hx
  · rw [h] at he
    simp only [List.mem_singleton] at he
    subst he
    simp only [Event.isExpiredFor, decide_eq_true_eq] at hx
    exact ⟨hx, hfc⟩

/-! ### Claim theorems -/

/-- C1 (code_bug): the claim says a working BUY LIMIT fills exactly when the
bar's highest ask is strictly below the order price, and never via the stop
condition highest_ask >= price.  In the source the scan's type guard is the
always-true disjunction scan_type_guard, so the BUY LIMIT order here fills
at price + slippage precisely because highest_ask >= price (first two
conjuncts), and when highest_ask < price — the claim's fill condition — no
fill happens at all (last two conjuncts). -/
theorem buy_limit_filled_by_stop_guard :
    (iterate envC1 ⟨2020, 1, 5, 601⟩ stC1).2 =
      [Event.orderFilled "EURUSD" "O1" "EO1" "ETO1" OrderSide.buy 100000 110010
        envC1.now] ∧
    _get_highest_ask envC1 stC1 "EURUSD" ≥ ordC1.price ∧
    (iterate envC1b ⟨2020, 1, 5, 601⟩ stC1).2 = [] ∧
    _get_highest_ask envC1b stC1 "EURUSD" < ordC1.price := by
  decide

/-- C2 (code_bug): after the OrderFilled event of a MARKET BUY submission the
event stream ends — no AccountEvent snapshot follows, because
_adjust_positions constructs its AccountEvent but never passes it to the
event sink. -/
theorem market_buy_fill_emits_no_account_event :
    (submit_order envC2 stC2 ordC2).toOption.map
        (fun r => (r.2, r.2.countP Event.isAccountEvent)) =
      some ([Event.orderSubmitted "EURUSD" "O2" envC2.now,
             Event.orderAccepted "EURUSD" "O2" envC2.now,
             Event.orderFilled "EURUSD" "O2" "EO2" "ETO2" OrderSide.buy 100000
               110020 envC2.now], 0) := by
  decide

/-- C5 (counterexample): 2020-01-05 and 2020-02-05 are distinct calendar
days, and the second iterate is the first one whose timestamp falls on
2020-02-05, so the claim requires cash_start_day to be captured there with
an AccountEvent emitted via collateral_inquiry.  Because day_number records
only the day-of-month (5 in both months), that call emits nothing and
leaves cash_start_day and cash_activity_day untouched; only the first day
produced the capture. -/
theorem cash_start_day_missed_on_equal_day_of_month :
    DateTime.sameCalendarDay d5a d5b = false ∧
    (iterate envC5 d5a stC5).2.countP Event.isAccountEvent = 1 ∧
    (iterate envC5 d5b (iterate envC5 d5a stC5).1).2 = [] ∧
    (iterate envC5 d5b (iterate envC5 d5a stC5).1).1.account_cash_start_day =
      (iterate envC5 d5a stC5).1.account_cash_start_day ∧
    (iterate envC5 d5b (iterate envC5 d5a stC5).1).1.account_cash_activity_day =
      (iterate envC5 d5a stC5).1.account_cash_activity_day := by
  decide

/-- C5 (amended): across iterate calls, cash_start_day is captured (from
the account balance, with cash_activity_day reset to zero and exactly one
AccountEvent emitted via collateral_inquiry) exactly on the calls whose
timestamp's day-of-month differs from the recorded day_number; calls whose
day-of-month equals day_number leave both fields unchanged and emit no
AccountEvent.  Because day_number stores only the day-of-month, this is
once per distinct calendar day only for timestamp sequences in which
consecutive distinct calendar days carry distinct day-of-month values. -/
theorem iterate_day_rollover (env : Env) (t : DateTime) (st : ExecState) :
    (st.day_number ≠ t.day →
      (iterate env t st).1.day_number = t.day ∧
      (iterate env t st).1.account_cash_start_day = st.account_cash_balance ∧
      (iterate env t st).1.account_cash_activity_day = 0 ∧
      (iterate env t st).2.countP Event.isAccountEvent = 1) ∧
    (st.day_number = t.day →
      (iterate env t st).1.day_number = st.day_number ∧
      (iterate env t st).1.account_cash_start_day = st.account_cash_start_day ∧
      (iterate env t st).1.account_cash_activity_day =
        st.account_cash_activity_day ∧
      (iterate env t st).2.countP Event.isAccountEvent = 0) := by
  constructor
  · intro hne
    have hz : (scanOrders env t
        ({ st with day_number := t.day,
                   account_cash_start_day := st.account_cash_balance,
                   account_cash_activity_day := 0 } : ExecState).working_orders
        { st with day_number := t.day,
                  account_cash_start_day := st.account_cash_balance,
                  account_cash_activity_day := 0 }).2.countP Event.isAccountEvent
        = 0 :=
      List.countP_eq_zero.mpr (fun e he => by
        simp [scanOrders_events_not_account env t _ _ e he])
    obtain ⟨f1, f2, f3, f4, f5⟩ := scanOrders_frame env t
      ({ st with day_number := t.day,
                 account_cash_start_day := st.account_cash_balance,
                 account_cash_activity_day := 0 } : ExecState).working_orders
      { st with day_number := t.day,
                account_cash_start_day := st.account_cash_balance,
                account_cash_activity_day := 0 }
    simp only [iterate, if_pos hne]
    refine ⟨f2, f4, f5, ?_⟩
    rw [List.countP_append, hz]
    rfl
  · intro heq
    have hcond : ¬ st.day_number ≠ t.day := by simpa using heq
    have hz : (scanOrders env t st.working_orders st).2.countP
        Event.isAccountEvent = 0 :=
      List.countP_eq_zero.mpr (fun e he => by
        simp [scanOrders_events_not_account env t _ _ e he])
    obtain ⟨f1, f2, f3, f4, f5⟩ := scanOrders_frame env t st.working_orders st
    simp only [iterate, if_neg hcond]
    exact ⟨f2, f4, f5, by rw [List.nil_append, hz]⟩

/-- Witness for C5 (amended): the first iterate of the run (day_number 0,
timestamp day 5) captures cash_start_day and emits one AccountEvent. -/
theorem iterate_day_rollover_witness :
    (iterate envC5 d5a stC5).1.day_number = d5a.day ∧
    (iterate envC5 d5a stC5).1.account_cash_start_day =
      stC5.account_cash_balance ∧
    (iterate envC5 d5a stC5).1.account_cash_activity_day = 0 ∧
    (iterate envC5 d5a stC5).2.countP Event.isAccountEvent = 1 :=
  (iterate_day_rollover envC5 d5a stC5).1 (by decide)

/-- C8 (counterexample): with the one-entry index [0], time_step = 0 and
to_time = 1 after index[0] = 0, the loop terminates after two passes — by
raising IndexError once next_index has run past the single index entry —
rather than running forever as the claim states. -/
theorem set_initial_iteration_zero_step_terminates :
    (0 : Int) ≤ 0 ∧ (0 : Int) < 1 ∧
    set_initial_iteration [0] 1 0 0 2 = some SiiResult.indexError := by
  decide

/-- Every done result of the loop: the final wall clock has reached to_time,
next_index and iteration advanced in lockstep (iteration is bumped exactly
when an index entry matched the wall clock), and the final wall clock is
start plus a whole number of steps, every earlier step value being strictly
below to_time. -/
theorem siiFuel_done_spec (idx : List Int) (to_time time_step : Int) :
    ∀ (fuel : Nat) (current : Int) (ni it : Nat) (c : Int) (ni' it' : Nat),
      siiFuel idx to_time time_step fuel current ni it = some (.done c ni' it') →
      to_time ≤ c ∧ ni ≤ ni' ∧ it' + ni = ni' + it ∧
        ∃ k : Nat, c = current + time_step * k ∧
          ∀ j : Nat, j < k → current + time_step * j < to_time := by
  intro fuel
  induction fuel with
  | zero =>
    intro current ni it c ni' it' h
    by_cases hc : current < to_time
    · simp [siiFuel, hc] at h
    · simp [siiFuel, hc] at h
      obtain ⟨rfl, rfl, rfl⟩ := h
      refine ⟨not_lt.mp hc, le_refl _, Nat.add_comm _ _, 0, by simp, ?_⟩
      intro j hj
      exact absurd hj (Nat.not_lt_zero j)
  | succ n ih =>
    intro current ni it c ni' it' h
    by_cases hc : current < to_time
    · cases hget : idx[ni]? with
      | none => simp [siiFuel, hc, hget] at h
      | some v =>
        by_cases hv : v = current
        · simp only [siiFuel, if_pos hc, hget, if_pos hv] at h
          obtain ⟨h1, h2, h3, k, hk, hall⟩ :=
            ih (current + time_step) (ni + 1) (it + 1) c ni' it' h
          refine ⟨h1, by omega, by omega, k + 1, ?_, ?_⟩
          · rw [hk]; push_cast; ring
          · intro j hj
            cases j with
            | zero => simpa using hc
            | succ j' =>
              have hj' := hall j' (by omega)
              have heq : current + time_step * ((j' : Int) + 1) =
                  current + time_step + time_step * (j' : Int) := by ring
              push_cast
              rw [heq]
              exact hj'
        · simp only [siiFuel, if_pos hc, hget, if_neg hv] at h
          obtain ⟨h1, h2, h3, k, hk, hall⟩ :=
            ih (current + time_step) ni it c ni' it' h
          refine ⟨h1, by omega, by omega, k + 1, ?_, ?_⟩
          · rw [hk]; push_cast; ring
          · intro j hj
            cases j with
            | zero => simpa using hc
            | succ j' =>
              have hj' := hall j' (by omega)
              have heq : current + time_step * ((j' : Int) + 1) =
                  current + time_step + time_step * (j' : Int) := by ring
              push_cast
              rw [heq]
              exact hj'
    · simp [siiFuel, hc] at h
      obtain ⟨rfl, rfl, rfl⟩ := h
      refine ⟨not_lt.mp hc, le_refl _, Nat.add_comm _ _, 0, by simp, ?_⟩
      intro j hj
      exact absurd hj (Nat.not_lt_zero j)

/-- C7: set_initial_iteration starts the wall clock at index[0]; when
to_time does not exceed index[0] the loop produces zero steps, the
iteration stays at its initial value (0 for a fresh client) and the clock
is set to index[0].  In general every completed run stops exactly when the
wall clock reaches to_time (all earlier stepped values are below to_time),
the clock being set to the resulting wall-clock value, and iteration is
incremented exactly once per index entry matched by the wall clock
(lockstep with next_index). -/
theorem set_initial_iteration_spec (idx : List Int) (to_time time_step : Int)
    (x0 : Int) (rest : List Int) (hidx : idx = x0 :: rest) :
    (to_time ≤ x0 → ∀ fuel iter0,
        set_initial_iteration idx to_time time_step iter0 fuel =
          some (.done x0 0 iter0)) ∧
    (∀ fuel current ni it c ni' it',
        siiFuel idx to_time time_step fuel current ni it = some (.done c ni' it') →
        to_time ≤ c ∧ ni ≤ ni' ∧ it' + ni = ni' + it ∧
          ∃ k : Nat, c = current + time_step * k ∧
            ∀ j : Nat, j < k → current + time_step * j < to_time) := by
  constructor
  · intro h fuel iter0
    subst hidx
    have hc : ¬ x0 < to_time := not_lt.mpr h
    cases fuel with
    | zero => simp [set_initial_iteration, siiFuel, hc]
    | succ n => simp [set_initial_iteration, siiFuel, hc]
  · exact siiFuel_done_spec idx to_time time_step

/-- Witness for C7 at the index [0, 1, 2] with to_time = 2 and step 1: the
run completes as done 2 2 2. -/
theorem set_initial_iteration_spec_witness :
    ((2 : Int) ≤ 2 ∧ (0 : Nat) ≤ 2 ∧ (2 : Nat) + 0 = 2 + 0 ∧
      ∃ k : Nat, (2 : Int) = 0 + 1 * k ∧
        ∀ j : Nat, j < k → (0 : Int) + 1 * j < 2) ∧
    set_initial_iteration [0, 1, 2] 2 1 0 5 = some (.done 2 2 2) :=
  ⟨(set_initial_iteration_spec [0, 1, 2] 2 1 0 [1, 2] rfl).2 5 0 0 0 2 2 2
      (by decide),
   by decide⟩

/-- With a strictly positive step the loop always completes within
(to_time - current).toNat passes, whatever state it is in. -/
theorem sii_pos_terminates (idx : List Int) (to_time time_step : Int)
    (hs : 0 < time_step) :
    ∀ (n : Nat) (current : Int), (to_time - current).toNat ≤ n →
      ∀ ni it, ∃ fuel r,
        siiFuel idx to_time time_step fuel current ni it = some r := by
  intro n
  induction n with
  | zero =>
    intro current hle ni it
    have hc : ¬ current < to_time := by omega
    exact ⟨0, .done current ni it, by simp [siiFuel, hc]⟩
  | succ n ih =>
    intro current hle ni it
    by_cases hc : current < to_time
    · cases hget : idx[ni]? with
      | none => exact ⟨1, .indexError, by simp [siiFuel, hc, hget]⟩
      | some v =>
        have hm : (to_time - (current + time_step)).toNat ≤ n := by omega
        by_cases hv : v = current
        · obtain ⟨fuel, r, hr⟩ := ih (current + time_step) hm (ni + 1) (it + 1)
          exact ⟨fuel + 1, r, by simp [siiFuel, hc, hget, hv, hr]⟩
        · obtain ⟨fuel, r, hr⟩ := ih (current + time_step) hm ni it
          exact ⟨fuel + 1, r, by simp [siiFuel, hc, hget, hv, hr]⟩
    · exact ⟨0, .done current ni it, by simp [siiFuel, hc]⟩

/-- With a non-positive step the wall clock never increases, so once it
starts below to_time the loop can never return a done result. -/
theorem sii_nonpos_no_done (idx : List Int) (to_time time_step : Int)
    (hs : time_step ≤ 0) (x0 : Int) (hlt : x0 < to_time) :
    ∀ (fuel : Nat) (current : Int), current ≤ x0 → ∀ ni it c ni' it',
      siiFuel idx to_time time_step fuel current ni it ≠
        some (.done c ni' it') := by
  intro fuel
  induction fuel with
  | zero =>
    intro current hcx ni it c ni' it'
    have hc : current < to_time := by omega
    simp [siiFuel, hc]
  | succ n ih =>
    intro current hcx ni it c ni' it'
    have hc : current < to_time := by omega
    cases hget : idx[ni]? with
    | none => simp [siiFuel, hc, hget]
    | some v =>
      by_cases hv : v = current
      · simpa [siiFuel, hc, hget, hv] using
          ih (current + time_step) (by omega) (ni + 1) (it + 1) c ni' it'
      · simpa [siiFuel, hc, hget, hv] using
          ih (current + time_step) (by omega) ni it c ni' it'

/-- C8 (amended): set_initial_iteration reaches a result — finishing the
loop or raising IndexError — for every strictly positive time_step; for a
zero or negative time_step with to_time after index[0], the loop never
completes normally (it loops forever, or raises IndexError, but the clock is
never set). -/
theorem set_initial_iteration_termination (idx : List Int)
    (to_time time_step : Int) (iter0 : Nat) :
    (0 < time_step → ∃ fuel r,
        set_initial_iteration idx to_time time_step iter0 fuel = some r) ∧
    (time_step ≤ 0 → ∀ x0 rest, idx = x0 :: rest → x0 < to_time →
        ∀ fuel c ni it,
          set_initial_iteration idx to_time time_step iter0 fuel ≠
            some (.done c ni it)) := by
  constructor
  · intro hs
    cases idx with
    | nil => exact ⟨0, .indexError, rfl⟩
    | cons x0 rest =>
      obtain ⟨fuel, r, hr⟩ :=
        sii_pos_terminates (x0 :: rest) to_time time_step hs
          (to_time - x0).toNat x0 (le_refl _) 0 iter0
      exact ⟨fuel, r, hr⟩
  · intro hs x0 rest hidx hlt fuel c ni it
    subst hidx
    exact sii_nonpos_no_done (x0 :: rest) to_time time_step hs x0 hlt fuel x0
      (le_refl _) 0 iter0 c ni it

/-- Witness for C8 (amended): with index [0, 5], to_time = 3 and step 1 the
loop reaches a result, and with step 0 it never reaches a done result (here
checked against fuel 100 and the done triple the claim would expect). -/
theorem set_initial_iteration_termination_witness :
    (∃ fuel r, set_initial_iteration [0, 5] 3 1 0 fuel = some r) ∧
    set_initial_iteration [0, 5] 3 0 0 100 ≠ some (.done 3 1 1) :=
  ⟨(set_initial_iteration_termination [0, 5] 3 1 0).1 (by decide),
   (set_initial_iteration_termination [0, 5] 3 0 0).2 (by decide) 0 [5] rfl
     (by decide) 100 3 1 1⟩

/-- C6: within one iterate call no working order is both filled and
expired (for a working-order map with duplicate-free keys mapping each id
to the order carrying it), and an order that expires did not satisfy the
scan's fill condition in that call — the fill branch, which skips the
expiry check, takes precedence. -/
theorem iterate_fill_expiry_exclusive (env : Env) (t : DateTime)
    (st : ExecState) (oid : String)
    (hkeys : (st.working_orders.map Prod.fst).Nodup)
    (hids : ∀ p ∈ st.working_orders, (Prod.snd p).id = p.1) :
    ¬ ((∃ e ∈ (iterate env t st).2, e.isFilledFor oid = true) ∧
       (∃ e ∈ (iterate env t st).2, e.isExpiredFor oid = true)) ∧
    ((∃ e ∈ (iterate env t st).2, e.isExpiredFor oid = true) →
      ∃ p ∈ st.working_orders, p.1 = oid ∧ fill_check env st p.2 = none) := by
  constructor
  · rintro ⟨⟨e1, he1, hf⟩, ⟨e2, he2, hx⟩⟩
    have ha1 : e1.isAccountEvent = false := by
      cases e1 <;> simp_all [Event.isFilledFor, Event.isAccountEvent]
    have ha2 : e2.isAccountEvent = false := by
      cases e2 <;> simp_all [Event.isExpiredFor, Event.isAccountEvent]
    obtain ⟨p1, hp1, hpe1⟩ := iterate_events_mem env t st e1 he1 ha1
    obtain ⟨p2, hp2, hpe2⟩ := iterate_events_mem env t st e2 he2 ha2
    obtain ⟨hid1, hsome⟩ := processOrder_filled_id env t st p1.2 oid e1 hpe1 hf
    obtain ⟨hid2, hnone⟩ := processOrder_expired_id env t st p2.2 oid e2 hpe2 hx
    have hk : p1.1 = p2.1 := by
      rw [← hids p1 hp1, ← hids p2 hp2, hid1, hid2]
    have hpq : p1 = p2 := keyed_entry_unique st.working_orders hkeys p1 p2 hp1 hp2 hk
    rw [hpq, hnone] at hsome
    cases hsome
  · rintro ⟨e, he, hx⟩
    have ha : e.isAccountEvent = false := by
      cases e <;> simp_all [Event.isExpiredFor, Event.isAccountEvent]
    obtain ⟨p, hp, hpe⟩ := iterate_events_mem env t st e he ha
    obtain ⟨hid, hnone⟩ := processOrder_expired_id env t st p.2 oid e hpe hx
    exact ⟨p, hp, (hids p hp).symm.trans hid, hnone⟩

/-- Witness for C6: a working BUY stop with a reached expire_time and an
unreached stop price expires in the iterate call, and for it the theorem
rules out a simultaneous fill. -/
theorem iterate_fill_expiry_exclusive_witness :
    (¬ ((∃ e ∈ (iterate envC6 tC6 stC6).2, e.isFilledFor "O6" = true) ∧
        (∃ e ∈ (iterate envC6 tC6 stC6).2, e.isExpiredFor "O6" = true))) ∧
    (∃ e ∈ (iterate envC6 tC6 stC6).2, e.isExpiredFor "O6" = true) :=
  ⟨(iterate_fill_expiry_exclusive envC6 tC6 stC6 "O6" (by decide) (by decide)).1,
   by decide⟩

/-- C10: every OrderExpired event emitted by iterate carries as its expired
timestamp the expire_time stored in the expired order itself — a value not
after the iterate timestamp t, and in general different from both t and the
clock's current time. -/
theorem expired_event_carries_expire_time (env : Env) (t : DateTime)
    (st : ExecState) (e : Event) (he : e ∈ (iterate env t st).2)
    (sym oid : String) (ts : DateTime)
    (hshape : e = Event.orderExpired sym oid ts) :
    ∃ p ∈ st.working_orders, p.2.symbol = sym ∧ p.2.id = oid ∧
      p.2.expire_time = some ts ∧ DateTime.le ts t = true := by
  have ha : e.isAccountEvent = false := by rw [hshape]; rfl
  obtain ⟨p, hp, hpe⟩ := iterate_events_mem env t st e he ha
  rcases processOrder_events_cases env t st p.2 with h | ⟨fp, _, h⟩ | ⟨et, _, hexp, hle, h⟩
  · rw [h] at hpe; cases hpe
  · rw [h] at hpe
    simp only [List.mem_singleton] at hpe
    rw [hshape] at hpe
    cases hpe
  · rw [h] at hpe
    simp only [List.mem_singleton] at hpe
    rw [hshape] at hpe
    injection hpe with h1 h2 h3
    subst h1; subst h2; subst h3
    exact ⟨p, hp, rfl, rfl, hexp, hle⟩

/-- modify_order, characterised against the section 4.5.3 admission
predicate evaluated on the order's current price: reject (one
OrderCancelReject, reason code INVALID PRICE, state unchanged) exactly when
the predicate rejects, otherwise one OrderModified carrying new_price,
state unchanged. -/
theorem modify_order_cases (env : Env) (st : ExecState) (order : Order)
    (new_price : Int)
    (hw : (alLookup st.working_orders order.id).isSome = true) :
    (spec_admission_reject order.side order.type order.price
        (_get_closing_ask env st order.symbol)
        (_get_closing_bid env st order.symbol) = true →
      ∃ txt, modify_order env st order new_price =
        Except.ok (st, [Event.orderCancelReject order.symbol order.id env.now
          "INVALID PRICE" txt])) ∧
    (spec_admission_reject order.side order.type order.price
        (_get_closing_ask env st order.symbol)
        (_get_closing_bid env st order.symbol) = false →
      modify_order env st order new_price =
        Except.ok (st, [Event.orderModified order.symbol order.id
          order.broker_id new_price env.now])) := by
  cases hside : order.side <;> cases hty : order.type <;>
    constructor <;> intro h <;>
      simp_all [modify_order, spec_admission_reject, _reject_modify_order,
        order_modified_event]

/-- C3: for a working order, modify_order evaluates the section 4.5.3
admission predicate on order.price (not on new_price) against the current
closing ask (BUY) or closing bid (SELL); when the predicate rejects it
emits exactly one OrderCancelReject with reason code INVALID PRICE, and
otherwise exactly one OrderModified carrying new_price. -/
theorem modify_order_admission (env : Env) (st : ExecState) (order : Order)
    (new_price : Int)
    (hw : (alLookup st.working_orders order.id).isSome = true) :
    (spec_admission_reject order.side order.type order.price
        (_get_closing_ask env st order.symbol)
        (_get_closing_bid env st order.symbol) = true →
      ∃ txt, modify_order env st order new_price =
        Except.ok (st, [Event.orderCancelReject order.symbol order.id env.now
          "INVALID PRICE" txt])) ∧
    (spec_admission_reject order.side order.type order.price
        (_get_closing_ask env st order.symbol)
        (_get_closing_bid env st order.symbol) = false →
      modify_order env st order new_price =
        Except.ok (st, [Event.orderModified order.symbol order.id
          order.broker_id new_price env.now])) :=
  modify_order_cases env st order new_price hw

/-- Witness for C3: modifying the working BUY stop whose current price
1.0900 sits below the closing ask 1.1001 is rejected with reason code
INVALID PRICE even though the requested new_price is 1.1100 — the
predicate ran on order.price. -/
theorem modify_order_admission_witness :
    ∃ txt, modify_order envC3 stC3 ordC3 111000 =
      Except.ok (stC3, [Event.orderCancelReject "EURUSD" "O3" envC3.now
        "INVALID PRICE" txt]) :=
  (modify_order_admission envC3 stC3 ordC3 111000 (by decide)).1 (by decide)

/-- C9: modify_order mutates nothing — in both outcomes the returned state
is exactly the state passed in (working orders, positions, account and the
stored orders all unchanged) and the only effect is the single emitted
event. -/
theorem modify_order_no_mutation (env : Env) (st : ExecState) (order : Order)
    (new_price : Int)
    (hw : (alLookup st.working_orders order.id).isSome = true) :
    ∃ e, modify_order env st order new_price = Except.ok (st, [e]) := by
  cases hb : spec_admission_reject order.side order.type order.price
      (_get_closing_ask env st order.symbol)
      (_get_closing_bid env st order.symbol) with
  | false => exact ⟨_, (modify_order_cases env st order new_price hw).2 hb⟩
  | true =>
    obtain ⟨txt, hmod⟩ := (modify_order_cases env st order new_price hw).1 hb
    exact ⟨_, hmod⟩

/-- Witness for C9 on a working SELL LIMIT that passes the admission
check. -/
theorem modify_order_no_mutation_witness :
    ∃ e, modify_order envC9 stC9 ordC9 112000 = Except.ok (stC9, [e]) :=
  modify_order_no_mutation envC9 stC9 ordC9 112000 (by decide)

/-- C4: submitting a STOP_MARKET / STOP_LIMIT / MIT order whose id is not
already working emits OrderSubmitted then OrderAccepted first; a BUY stop
is then rejected with OrderRejected exactly when order.price < closing
ask, and a SELL stop exactly when order.price > closing bid; otherwise the
order is appended to the working-order map and exactly one OrderWorking
event with broker id B+orderId is emitted. -/
theorem submit_order_stop_admission (env : Env) (st : ExecState) (order : Order)
    (hfree : alLookup st.working_orders order.id = none)
    (hstop : order.type = OrderType.stop_market ∨
      order.type = OrderType.stop_limit ∨ order.type = OrderType.mit) :
    (order.side = OrderSide.buy →
      (order.price < _get_closing_ask env st order.symbol →
        ∃ txt, submit_order env st order = Except.ok (st,
          [Event.orderSubmitted order.symbol order.id env.now,
           Event.orderAccepted order.symbol order.id env.now,
           Event.orderRejected order.symbol order.id env.now txt])) ∧
      (_get_closing_ask env st order.symbol ≤ order.price →
        submit_order env st order = Except.ok
          ({ st with working_orders := st.working_orders ++ [(order.id, order)] },
           [Event.orderSubmitted order.symbol order.id env.now,
            Event.orderAccepted order.symbol order.id env.now,
            Event.orderWorking order.symbol order.id ("B" ++ order.id)
              order.label order.side order.type order.quantity order.price
              order.time_in_force env.now order.expire_time]))) ∧
    (order.side = OrderSide.sell →
      (_get_closing_bid env st order.symbol < order.price →
        ∃ txt, submit_order env st order = Except.ok (st,
          [Event.orderSubmitted order.symbol order.id env.now,
           Event.orderAccepted order.symbol order.id env.now,
           Event.orderRejected order.symbol order.id env.now txt])) ∧
      (order.price ≤ _get_closing_bid env st order.symbol →
        submit_order env st order = Except.ok
          ({ st with working_orders := st.working_orders ++ [(order.id, order)] },
           [Event.orderSubmitted order.symbol order.id env.now,
            Event.orderAccepted order.symbol order.id env.now,
            Event.orderWorking order.symbol order.id ("B" ++ order.id)
              order.label order.side order.type order.quantity order.price
              order.time_in_force env.now order.expire_time]))) := by
  have hins := alInsert_of_lookup_none st.working_orders order.id order hfree
  have hfs : (alLookup st.working_orders order.id).isSome = false := by
    rw [hfree]; rfl
  refine ⟨fun hside => ⟨fun hcmp => ?_, fun hcmp => ?_⟩,
          fun hside => ⟨fun hcmp => ?_, fun hcmp => ?_⟩⟩
  · rcases hstop with hty | hty | hty <;>
      simp_all [submit_order, _reject_order]
  · have hnc : ¬ order.price < _get_closing_ask env st order.symbol :=
      not_lt.mpr hcmp
    rcases hstop with hty | hty | hty <;>
      simp_all [submit_order, order_working_event]
  · rcases hstop with hty | hty | hty <;>
      simp_all [submit_order, _reject_order]
  · have hnc : ¬ _get_closing_bid env st order.symbol < order.price :=
      not_lt.mpr hcmp
    rcases hstop with hty | hty | hty <;>
      simp_all [submit_order, order_working_event]

/-- Witness for C4: the BUY stop at 1.1100 above the closing ask 1.1001 is
accepted into the working map with broker id B+O4. -/
theorem submit_order_stop_admission_witness :
    submit_order envC4 stC4 ordC4 = Except.ok
      ({ stC4 with working_orders := stC4.working_orders ++ [(ordC4.id, ordC4)] },
       [Event.orderSubmitted ordC4.symbol ordC4.id envC4.now,
        Event.orderAccepted ordC4.symbol ordC4.id envC4.now,
        Event.orderWorking ordC4.symbol ordC4.id ("B" ++ ordC4.id) ordC4.label
          ordC4.side ordC4.type ordC4.quantity ordC4.price ordC4.time_in_force
          envC4.now ordC4.expire_time]) :=
  ((submit_order_stop_admission envC4 stC4 ordC4 (by decide) (Or.inl rfl)).1
    rfl).2 (by decide)

/-- Witness for C10: the expired SELL stop's event carries its stored
expire_time 2020-01-05T05:00, although the iterate timestamp (minute 601)
and the clock time (minute 600) are both strictly later. -/
theorem expired_event_carries_expire_time_witness :
    (∃ p ∈ stC10.working_orders, p.2.symbol = "EURUSD" ∧ p.2.id = "O10" ∧
      p.2.expire_time = some etC10 ∧ DateTime.le etC10 tC10 = true) ∧
    etC10 ≠ tC10 ∧ etC10 ≠ envC10.now :=
  ⟨expired_event_carries_expire_time envC10 tC10 stC10
      (Event.orderExpired "EURUSD" "O10" etC10) (by decide) "EURUSD" "O10"
      etC10 rfl,
   by decide, by decide⟩

end Backtest
